import Mathlib

/-!
Verification of the podstats ingestion-and-classification pipeline
(`src/utils.ts` and the dataset-store usage in `src/App.tsx`).

Strings are modelled as `List Char`.  Host (browser / ECMAScript) primitives
that the source calls are modelled explicitly and documented at each
definition; everything else is a direct translation of the TypeScript source.
-/

namespace Podstats

/-- Strings of the embedded program. -/
abbrev Str := List Char

/-! ## Host string primitives -/

/-- Whitespace as stripped by the host `String.prototype.trim`, restricted to
the ASCII whitespace occurring in this dataset. -/
def jsWhitespace (c : Char) : Bool :=
  c = ' ' || c = '\t' || c = '\n' || c = '\r'

/-- Model of the host `trim()`: drop leading and trailing whitespace. -/
def jsTrim (s : Str) : Str :=
  ((s.dropWhile jsWhitespace).reverse.dropWhile jsWhitespace).reverse

/-- Model of the host `split('\n')`.  Like the host function it always
returns at least one (possibly empty) piece. -/
def splitLines (s : Str) : List Str :=
  match s with
  | [] => [[]]
  | c :: r =>
    if c = '\n' then [] :: splitLines r
    else
      match splitLines r with
      | [] => [[c]]
      | l :: ls => (c :: l) :: ls

/-- Numeric value of a digit list, most significant first. -/
def digitsToNat (ds : Str) : Nat :=
  ds.foldl (fun a c => 10 * a + (c.toNat - 48)) 0

/-- Model of the host `parseInt(s, 10) || 0`: skip leading whitespace, read an
optional sign and then a maximal run of decimal digits; no digits (`NaN`)
falls back to `0` through the `|| 0`. -/
def jsParseIntOr0 (s : Str) : Int :=
  match s.dropWhile jsWhitespace with
  | '-' :: r =>
    let ds := r.takeWhile Char.isDigit
    if ds = [] then 0 else -(digitsToNat ds : Int)
  | '+' :: r =>
    let ds := r.takeWhile Char.isDigit
    if ds = [] then 0 else (digitsToNat ds : Int)
  | t =>
    let ds := t.takeWhile Char.isDigit
    if ds = [] then 0 else (digitsToNat ds : Int)

/-- `parseNumber` from `src/utils.ts`: empty string, en-dash or bare hyphen
yield 0; otherwise all commas are removed (`value.replace(/,/g, '')`) and the
result is parsed with `parseInt(_, 10) || 0`. -/
def parseNumber (value : Str) : Int :=
  if value = [] ∨ value = ['–'] ∨ value = ['-'] then 0
  else jsParseIntOr0 (value.filter (fun c => !(c == ',')))

/-- Days in a month of the proleptic Gregorian calendar. -/
def daysInMonth (y m : Nat) : Nat :=
  if m = 2 then
    if y % 4 = 0 && (y % 100 != 0 || y % 400 = 0) then 29 else 28
  else if m = 4 || m = 6 || m = 9 || m = 11 then 30
  else 31

/-- Model of the host date parser used by `parseDate` / `new Date(dateStr)`
followed by the `isNaN(getTime())` validity check, restricted to the
calendar-date form `YYYY-MM-DD` that the dataset uses (other host-accepted
formats are outside the model).  A valid date is returned as the integer
`y * 10000 + m * 100 + d`, which orders exactly like the host timestamp. -/
def parseDate (s : Str) : Option Int :=
  match s with
  | [y1, y2, y3, y4, '-', m1, m2, '-', d1, d2] =>
    if y1.isDigit && y2.isDigit && y3.isDigit && y4.isDigit &&
       m1.isDigit && m2.isDigit && d1.isDigit && d2.isDigit then
      let y := digitsToNat [y1, y2, y3, y4]
      let m := digitsToNat [m1, m2]
      let d := digitsToNat [d1, d2]
      if 1 ≤ m && m ≤ 12 && 1 ≤ d && d ≤ daysInMonth y m then
        some ((y * 10000 + m * 100 + d : Nat) : Int)
      else none
    else none
  | _ => none

/-! ## Data model (`src/types.ts`) -/

/-- `Episode` from `src/types.ts`; `published` holds the (model) timestamp. -/
structure Episode where
  slug : Str
  title : Str
  published : Int
  day1 : Int
  day7 : Int
  day14 : Int
  day30 : Int
  day90 : Int
  spotify : Int
  allTime : Int
deriving DecidableEq, Repr

/-- `EpisodeParseResult` from `src/types.ts`. -/
structure EpisodeParseResult where
  episodes : List Episode
  skippedCount : Nat
  warnings : List Str
deriving DecidableEq, Repr

/-- `EpisodesState` from `src/types.ts` (`lastImportTimestamp` optional). -/
structure EpisodesState where
  episodes : List Episode
  skippedCount : Nat
  warnings : List Str
  sourceLabel : Str
  lastImportTimestamp : Option Int
deriving DecidableEq, Repr

/-! ## Tokenizer and row builder (`src/utils.ts`) -/

/-- Loop body of `parseCSVLine`: `cur` is the `current` accumulator and
`inQ` the `inQuotes` flag.  A double quote toggles the flag, a comma outside
quotes ends the field (each produced field is trimmed), anything else is
appended to the current field. -/
def parseCSVLineAux (line : Str) (cur : Str) (inQ : Bool) : List Str :=
  match line with
  | [] => [jsTrim cur]
  | c :: rest =>
    if c = '"' then parseCSVLineAux rest cur (!inQ)
    else if c = ',' ∧ inQ = false then jsTrim cur :: parseCSVLineAux rest [] inQ
    else parseCSVLineAux rest (cur ++ [c]) inQ

/-- `parseCSVLine` from `src/utils.ts`. -/
def parseCSVLine (line : Str) : List Str :=
  parseCSVLineAux line [] false

/-- `EXPECTED_HEADERS` from `src/utils.ts`. -/
def EXPECTED_HEADERS : List Str :=
  ["Slug,Title,Published,Day 1,Day 7,Day 14,Day 30,Day 90,Spotify,All Time".toList,
   "Slug,Title,Published,1 Day,7 Days,14 Days,30 Days,90 Days,Spotify,All Time".toList]

/-- The header check of `parseEpisodesFromCsv`: the first line is trimmed,
quote characters are removed, trimmed again, and compared against each
expected header treated the same way. -/
def headerRecognized (line : Str) : Bool :=
  EXPECTED_HEADERS.any (fun expected =>
    jsTrim ((jsTrim line).filter (fun c => !(c == '"'))) ==
      jsTrim (expected.filter (fun c => !(c == '"'))))

/-- The warning pushed by the (unreachable) empty-input branch. -/
def emptyCsvWarning : Str := "CSV file is empty".toList

/-- The warning pushed when the header line matches no expected format. -/
def headerMismatchWarning : Str :=
  ("Header format not recognized. Expected one of: \"Slug,Title,Published,Day 1,Day 7,Day 14,Day 30,Day 90,Spotify,All Time\" or similar variations.").toList

/-- Least-significant-first decimal digits of a natural number. -/
def natDigitsRev (n : Nat) : Str :=
  if h : n < 10 then [Char.ofNat (48 + n)]
  else Char.ofNat (48 + n % 10) :: natDigitsRev (n / 10)
decreasing_by exact Nat.div_lt_self (by omega) (by omega)

/-- Decimal rendering of a natural number (host number-to-string on the
integral values occurring here). -/
def natToStr (n : Nat) : Str := (natDigitsRev n).reverse

/-- Decimal rendering of an integer. -/
def intToStr (n : Int) : Str :=
  if n < 0 then '-' :: natToStr n.natAbs else natToStr n.toNat

/-- The aggregate warning `Skipped ${skippedCount} row(s) due to missing or
invalid data`. -/
def skipWarning (n : Nat) : Str :=
  "Skipped ".toList ++ natToStr n ++ " row(s) due to missing or invalid data".toList

/-- Outcome of the row loop body for one line. -/
inductive RowOutcome where
  | empty
  | skipped
  | ok (e : Episode)
deriving DecidableEq, Repr

/-- One iteration of the data-row loop of `parseEpisodesFromCsv`: trim the
line, skip it silently when empty, tokenize, reject rows with fewer than 10
fields, reject rows whose slug, title or published field is empty, reject
rows whose date does not parse, and otherwise build the `Episode`. -/
def processRow (rawLine : Str) : RowOutcome :=
  if jsTrim rawLine = [] then .empty
  else
    match parseCSVLine (jsTrim rawLine) with
    | slug :: title :: published :: d1 :: d7 :: d14 :: d30 :: d90 :: sp :: allT :: _ =>
      if slug = [] ∨ title = [] ∨ published = [] then .skipped
      else
        match parseDate published with
        | none => .skipped
        | some t =>
          .ok ⟨jsTrim slug, jsTrim title, t, parseNumber d1, parseNumber d7,
               parseNumber d14, parseNumber d30, parseNumber d90,
               parseNumber sp, parseNumber allT⟩
    | _ => .skipped

/-- The episodes accepted from the data rows, in input-row order. -/
def buildEpisodes (rows : List Str) : List Episode :=
  rows.filterMap (fun l =>
    match processRow l with
    | .ok e => some e
    | _ => none)

/-- The number of rows rejected by the row loop. -/
def countSkipped (rows : List Str) : Nat :=
  rows.countP (fun l =>
    match processRow l with
    | .skipped => true
    | _ => false)

/-- Insertion into a descending-by-`published` list, placing the new element
before the first entry whose date is not later: this realizes the ECMAScript
stable sort with comparator `(a, b) => b.published.getTime() - a.published.getTime()`. -/
def insertDesc (e : Episode) : List Episode → List Episode
  | [] => [e]
  | x :: xs => if x.published ≤ e.published then e :: x :: xs else x :: insertDesc e xs

/-- Stable descending sort by `published` (model of
`episodes.sort((a, b) => b.published.getTime() - a.published.getTime())`). -/
def sortByPublishedDesc : List Episode → List Episode
  | [] => []
  | x :: xs => insertDesc x (sortByPublishedDesc xs)

/-- `parseEpisodesFromCsv` from `src/utils.ts`: split the trimmed input into
lines, validate the header of the first line (a mismatch is only a warning),
run the row loop over the remaining lines, append the aggregate skip warning,
and sort the accepted episodes descending by published date. -/
def parseEpisodesFromCsv (csv : Str) : EpisodeParseResult :=
  if (splitLines (jsTrim csv)).length = 0 then
    ⟨[], 0, [emptyCsvWarning]⟩
  else
    ⟨sortByPublishedDesc (buildEpisodes (splitLines (jsTrim csv)).tail),
     countSkipped (splitLines (jsTrim csv)).tail,
     (if headerRecognized ((splitLines (jsTrim csv)).headD []) then []
      else [headerMismatchWarning]) ++
     (if countSkipped (splitLines (jsTrim csv)).tail > 0 then
        [skipWarning (countSkipped (splitLines (jsTrim csv)).tail)]
      else [])⟩

/-- `loadEpisodes` from `src/utils.ts`.  The bundled CSV asset is imported at
build time in the source; here it is an explicit parameter. -/
def loadEpisodes (bundled : Str) : EpisodesState :=
  ⟨(parseEpisodesFromCsv bundled).episodes,
   (parseEpisodesFromCsv bundled).skippedCount,
   (parseEpisodesFromCsv bundled).warnings,
   "Default Dataset".toList, none⟩

/-! ## Topic classifier (`extractTopics` in `src/utils.ts`) -/

/-- The hand-curated keyword dictionary of `extractTopics`, in source order
(most specific terms first). -/
def keywords : List Str :=
  ["Machine Learning".toList, "ChatGPT".toList, "GitHub Copilot".toList,
   "VS Code".toList, "GitHub Actions".toList, "CI/CD".toList, "GitHub Spark".toList,
   "visionOS".toList, "watchOS".toList, "tvOS".toList, "macOS".toList,
   "iOS".toList, "Android".toList, "PlayStation".toList, "Xbox".toList,
   ".NET MAUI".toList, "MAUI".toList, ".NET".toList, "Blazor".toList,
   "React".toList, "Swift".toList, "Kotlin".toList, "C#".toList,
   "GraphQL".toList, "Docker".toList, "Kubernetes".toList,
   "Azure".toList, "AWS".toList, "OpenAI".toList, "GitHub".toList,
   "Xcode".toList, "Copilot".toList,
   "Apple".toList, "Microsoft".toList, "Google".toList, "Meta".toList,
   "Nintendo".toList,
   "AI".toList, "ML".toList, "VR".toList, "AR".toList, "XR".toList,
   "API".toList, "REST".toList, "SQL".toList,
   "Mobile".toList, "Web".toList, "Desktop".toList, "Cloud".toList,
   "Security".toList, "Database".toList, "DevOps".toList]

/-- ASCII lowercasing, modelling the case-insensitive (`i`) regex flag and
`toLowerCase()` on the ASCII keywords involved. -/
def toLowerStr (s : Str) : Str := s.map Char.toLower

/-- The regex character class `[a-zA-Z0-9]`. -/
def regexAlphaNum (c : Char) : Bool :=
  ('a' ≤ c && c ≤ 'z') || ('A' ≤ c && c ≤ 'Z') || ('0' ≤ c && c ≤ '9')

/-- The regex word-character class `[A-Za-z0-9_]` underlying `\b`. -/
def regexWordChar (c : Char) : Bool := regexAlphaNum c || c = '_'

/-- Case-insensitive occurrence of `kw` in `title` starting at index `i`. -/
def substrAt (title kw : Str) (i : Nat) : Bool :=
  toLowerStr ((title.drop i).take kw.length) == toLowerStr kw

/-- A regex word boundary `\b` at position `i` of `title`. -/
def boundaryAt (title : Str) (i : Nat) : Bool :=
  (decide (0 < i) && regexWordChar (title.getD (i - 1) ' ')) !=
    regexWordChar (title.getD i ' ')

/-- A match of the pattern `(?<![a-zA-Z0-9])kw(?![a-zA-Z0-9])` (used for
keywords containing `.` or `#`) starting at position `i`. -/
def specialOkAt (title kw : Str) (i : Nat) : Bool :=
  substrAt title kw i &&
  (decide (i = 0) || !(regexAlphaNum (title.getD (i - 1) ' '))) &&
  !(regexAlphaNum (title.getD (i + kw.length) ' '))

/-- A match of the pattern `\bkw\b` (used for all other keywords) starting at
position `i`; a position past the end of the title counts as a non-word side. -/
def wordOkAt (title kw : Str) (i : Nat) : Bool :=
  substrAt title kw i && boundaryAt title i && boundaryAt title (i + kw.length)

/-- `pattern.test(title)` of `extractTopics`: keywords containing a dot or a
hash use the lookaround pattern, all others whole-word boundary matching,
both case-insensitive. -/
def testKeyword (title kw : Str) : Bool :=
  if kw.contains '.' || kw.contains '#' then
    (List.range (title.length + 1)).any (fun i => specialOkAt title kw i)
  else
    (List.range (title.length + 1)).any (fun i => wordOkAt title kw i)

/-- `hay.includes(needle)` on already-lowercased strings. -/
def strIncludes (needle hay : Str) : Bool :=
  (List.range (hay.length + 1)).any (fun i => (hay.drop i).take needle.length == needle)

/-- The `hasContainingMatch` test of `extractTopics`: some already-accepted
keyword's text contains the new keyword's text (case-insensitive) and differs
from it. -/
def hasContainingMatch (matched : List Str) (kw : Str) : Bool :=
  matched.any (fun existing =>
    strIncludes (toLowerStr kw) (toLowerStr existing) && !(existing == kw))

/-- Acceptance of a regex-matching keyword into the per-title match set:
suppressed when an accepted keyword contains it; otherwise it evicts every
accepted keyword its own text contains, and is appended. -/
def addKeyword (matched : List Str) (kw : Str) : List Str :=
  if hasContainingMatch matched kw then matched
  else
    (matched.filter (fun existing =>
      !(strIncludes (toLowerStr existing) (toLowerStr kw) && !(kw == existing)))) ++ [kw]

/-- The surviving keyword set for one title: every dictionary keyword is
tested in order and, when its pattern matches, run through `addKeyword`. -/
def matchedTopicsFor (title : Str) : List Str :=
  keywords.foldl (fun acc kw => if testKeyword title kw then addKeyword acc kw else acc) []

/-- Append `e` to the entry of `k` of the insertion-ordered topic map,
creating the entry at the end when absent (the `Map` behaviour of the source). -/
def addToTopic : List (Str × List Episode) → Str → Episode → List (Str × List Episode)
  | [], k, e => [(k, [e])]
  | (k', es) :: rest, k, e =>
    if k' = k then (k', es ++ [e]) :: rest else (k', es) :: addToTopic rest k e

/-- `extractTopics` from `src/utils.ts`: for each episode in order, compute
the surviving keyword set of its title and append the episode to each
surviving topic's list. -/
def extractTopics (episodes : List Episode) : List (Str × List Episode) :=
  episodes.foldl
    (fun topics ep =>
      (matchedTopicsFor ep.title).foldl (fun t topic => addToTopic t topic ep) topics)
    []

/-! ## Retention and performance (`src/utils.ts`) -/

/-- Result record of `calculateRetention`. -/
structure RetentionResult where
  day1 : ℚ
  day7 : ℚ
  day30 : ℚ
deriving DecidableEq, Repr

/-- `calculateRetention` from `src/utils.ts`.  The listen counts are integral,
so the host floating-point arithmetic is modelled by exact rationals. -/
def calculateRetention (e : Episode) : RetentionResult :=
  if e.allTime = 0 then ⟨0, 0, 0⟩
  else
    ⟨((e.day1 : ℚ) / (e.allTime : ℚ)) * 100,
     ((e.day7 : ℚ) / (e.allTime : ℚ)) * 100,
     ((e.day30 : ℚ) / (e.allTime : ℚ)) * 100⟩

/-- A host number as produced by the division in `getEpisodePerformance`:
a finite value (modelled exactly as a rational), an infinity, or `NaN`. -/
inductive JSNum where
  | fin (q : ℚ)
  | posInf
  | negInf
  | nan
deriving DecidableEq, Repr

/-- Host division `a / b`: division by zero yields `NaN` for `0 / 0` and a
signed infinity otherwise; finite quotients are modelled exactly. -/
def jsDiv (a b : ℚ) : JSNum :=
  if b = 0 then
    if a = 0 then .nan else if 0 < a then .posInf else .negInf
  else .fin (a / b)

/-- Host comparison `x >= c` for a finite literal `c`: false on `NaN`. -/
def jsGe (x : JSNum) (c : ℚ) : Bool :=
  match x with
  | .fin q => decide (c ≤ q)
  | .posInf => true
  | .negInf => false
  | .nan => false

/-- The four performance tiers returned by `getEpisodePerformance`. -/
inductive Perf where
  | excellent
  | good
  | average
  | belowAverage
deriving DecidableEq, Repr

/-- `getEpisodePerformance` from `src/utils.ts`: `ratio = allTime / avgAllTime`
classified against 1.5, 1.1 and 0.9 (decimal literals modelled as exact
rationals). -/
def getEpisodePerformance (e : Episode) (avgAllTime : ℚ) : Perf :=
  if jsGe (jsDiv (e.allTime : ℚ) avgAllTime) (1.5 : ℚ) then .excellent
  else if jsGe (jsDiv (e.allTime : ℚ) avgAllTime) (1.1 : ℚ) then .good
  else if jsGe (jsDiv (e.allTime : ℚ) avgAllTime) (0.9 : ℚ) then .average
  else .belowAverage

/-! ## Dataset store (`src/utils.ts` persistence helpers, `src/App.tsx`) -/

/-- Metadata persisted next to the raw CSV text. -/
structure Metadata where
  sourceLabel : Str
  timestamp : Int
deriving DecidableEq, Repr

/-- The browser `localStorage` restricted to the two keys this program uses
(`podstats:episodesCsv` and `podstats:episodesMetadata`); `none` models an
absent key. -/
structure LocalStorage where
  csvItem : Option Str
  metadataItem : Option Str
deriving DecidableEq, Repr

/-- JSON string escaping as performed by `JSON.stringify` on the characters
occurring in source labels (quote and backslash). -/
def escapeStr : Str → Str
  | [] => []
  | c :: r => if c = '"' ∨ c = '\\' then '\\' :: c :: escapeStr r else c :: escapeStr r

/-- The opening of the serialized metadata object, up to the value of
`sourceLabel`. -/
def jsonObjHead : Str := "\x7b\"sourceLabel\":\"".toList

/-- The middle of the serialized metadata object: the closing quote of the
label is consumed by the string parser, so this part starts at the comma. -/
def jsonTsKey : Str := ",\"timestamp\":".toList

/-- Model of `JSON.stringify({sourceLabel, timestamp})`: key order follows
object insertion order as in the host. -/
def jsonStringifyMeta (m : Metadata) : Str :=
  jsonObjHead ++ escapeStr m.sourceLabel ++ ('"' :: jsonTsKey) ++
    intToStr m.timestamp ++ ['\x7d']

/-- Parse a JSON string body (after its opening quote) up to and including
its closing quote, undoing `escapeStr`; returns the content and the rest. -/
def parseJsonStr : Str → Option (Str × Str)
  | [] => none
  | c :: r =>
    if c = '"' then some ([], r)
    else if c = '\\' then
      match r with
      | [] => none
      | c2 :: r2 =>
        if c2 = '"' ∨ c2 = '\\' then
          (parseJsonStr r2).map (fun p => (c2 :: p.1, p.2))
        else none
    else (parseJsonStr r).map (fun p => (c :: p.1, p.2))

/-- Parse a maximal run of decimal digits; fails when there is none. -/
def parseJsonNat (s : Str) : Option (Nat × Str) :=
  if s.takeWhile Char.isDigit = [] then none
  else some (digitsToNat (s.takeWhile Char.isDigit), s.dropWhile Char.isDigit)

/-- Parse an optionally negated decimal integer. -/
def parseJsonInt (s : Str) : Option (Int × Str) :=
  match s with
  | [] => none
  | c :: r =>
    if c = '-' then (parseJsonNat r).map (fun p => (-(p.1 : Int), p.2))
    else (parseJsonNat s).map (fun p => ((p.1 : Int), p.2))

/-- Strip an expected literal piece from the front of the input. -/
def stripLead (piece s : Str) : Option Str :=
  if s.take piece.length = piece then some (s.drop piece.length) else none

/-- Model of `JSON.parse` on the stored metadata string, restricted to the
canonical object shape produced by `jsonStringifyMeta`; every other string is
a parse failure (the host would also fail on every non-JSON string). -/
def jsonParseMeta (s : Str) : Option Metadata :=
  match stripLead jsonObjHead s with
  | none => none
  | some s1 =>
    match parseJsonStr s1 with
    | none => none
    | some (label, s2) =>
      match stripLead jsonTsKey s2 with
      | none => none
      | some s3 =>
        match parseJsonInt s3 with
        | none => none
        | some (n, s4) => if s4 = ['\x7d'] then some ⟨label, n⟩ else none

/-- The message of the typed `Error` thrown by `saveCsvToStorage`. -/
def saveErrorMessage : Str :=
  "Failed to save data. Storage quota may be exceeded.".toList

/-- `saveCsvToStorage` from `src/utils.ts`.  The two booleans model whether
each underlying `localStorage.setItem` call throws (for example on quota
exhaustion); a throwing call leaves the store as it was.  The first component
of the result is `some` of the thrown error message, or `none` on success. -/
def saveCsvToStorage (failCsvWrite failMetaWrite : Bool) (csv : Str)
    (metadata : Metadata) (st : LocalStorage) : Option Str × LocalStorage :=
  if failCsvWrite then (some saveErrorMessage, st)
  else if failMetaWrite then (some saveErrorMessage, ⟨some csv, st.metadataItem⟩)
  else (none, ⟨some csv, some (jsonStringifyMeta metadata)⟩)

/-- `clearCsvFromStorage` from `src/utils.ts`: unconditionally remove both
keys. -/
def clearCsvFromStorage (_st : LocalStorage) : LocalStorage := ⟨none, none⟩

/-- `loadCsvFromStorage` from `src/utils.ts`: absent or empty (falsy) values
mean "no persisted dataset"; a metadata parse failure clears both keys and
also reports `none`.  Returns the reported value and the store afterwards. -/
def loadCsvFromStorage (st : LocalStorage) :
    Option (Str × Metadata) × LocalStorage :=
  match st.csvItem, st.metadataItem with
  | some csv, some metaStr =>
    if csv = [] ∨ metaStr = [] then (none, st)
    else
      match jsonParseMeta metaStr with
      | some m => (some (csv, m), st)
      | none => (none, clearCsvFromStorage st)
  | _, _ => (none, st)

/-- The `episodesState` initializer of `src/App.tsx`: use the persisted
dataset when the store reports one (its raw text re-parses without throwing,
since `parseEpisodesFromCsv` is total), and fall back to the bundled dataset
otherwise. -/
def appInitEpisodesState (bundled : Str) (st : LocalStorage) :
    EpisodesState × LocalStorage :=
  match loadCsvFromStorage st with
  | (some (csv, m), st') =>
    (⟨(parseEpisodesFromCsv csv).episodes,
      (parseEpisodesFromCsv csv).skippedCount,
      (parseEpisodesFromCsv csv).warnings,
      m.sourceLabel, some m.timestamp⟩, st')
  | (none, st') => (loadEpisodes bundled, st')

/-- Value of a least-significant-first digit list (specification helper for
the decimal rendering). -/
def valRev : Str → Nat
  | [] => 0
  | c :: r => (c.toNat - 48) + 10 * valRev r

/-- Concrete episode used to witness claim C2. -/
def c2Episode : Episode :=
  ⟨"477".toList, ".NET MAUI deep dive".toList, 20250825, 0, 0, 0, 0, 0, 0, 0⟩

/-! ## Claim C1 -/

/-- Claim C1: on an input consisting of the recognized header line followed by
the data row `477,"477: From Spark, To Blazor, To Mobile",2025-08-25,"1,781",500,400,300,200,100,2000`,
`parseEpisodesFromCsv` yields exactly one episode with slug `477`, the title
with its embedded commas intact, and `day1 = 1781`; the tokenizer treats a
double quote as toggling inside-quotes mode, a comma inside quotes as literal
text, trims each field, and the quoted thousands separator of `"1,781"` is
stripped before integer parsing. -/
theorem c1_quote_aware_row_parse :
    parseEpisodesFromCsv
      ("Slug,Title,Published,Day 1,Day 7,Day 14,Day 30,Day 90,Spotify,All Time\n477,\"477: From Spark, To Blazor, To Mobile\",2025-08-25,\"1,781\",500,400,300,200,100,2000").toList =
      ⟨[⟨"477".toList, "477: From Spark, To Blazor, To Mobile".toList, 20250825,
         1781, 500, 400, 300, 200, 100, 2000⟩], 0, []⟩ ∧
    parseCSVLine
      ("477,\"477: From Spark, To Blazor, To Mobile\",2025-08-25,\"1,781\",500,400,300,200,100,2000").toList =
      ["477".toList, "477: From Spark, To Blazor, To Mobile".toList,
       "2025-08-25".toList, "1,781".toList, "500".toList, "400".toList,
       "300".toList, "200".toList, "100".toList, "2000".toList] ∧
    parseNumber "1,781".toList = 1781 := by
  refine ⟨by decide, by decide, by decide⟩

/-! ## Claim C2 -/

set_option maxHeartbeats 2000000 in
/-- Claim C2: an episode titled `.NET MAUI deep dive` is recorded under the
`.NET MAUI` topic only — the shorter matching keywords `MAUI` and `.NET`,
whose text is contained in the accepted `.NET MAUI`, are suppressed, so only
the most specific matching term survives. -/
theorem c2_topic_overlap_resolution (e : Episode)
    (h : e.title = ".NET MAUI deep dive".toList) :
    extractTopics [e] = [(".NET MAUI".toList, [e])] := by
  obtain ⟨slug, title, pub, d1, d7, d14, d30, d90, sp, allT⟩ := e
  have h' : title = ".NET MAUI deep dive".toList := h
  subst h'
  have hm : matchedTopicsFor ".NET MAUI deep dive".toList = [".NET MAUI".toList] := by
    decide
  simp only [extractTopics, List.foldl_cons, List.foldl_nil]
  rw [hm]
  simp [addToTopic]

/-- Witness for claim C2 at a concrete episode. -/
theorem c2_topic_overlap_resolution_witness :
    extractTopics [c2Episode] = [(".NET MAUI".toList, [c2Episode])] :=
  c2_topic_overlap_resolution c2Episode rfl

/-! ## Claim C3 -/

/-- Counterexample to claim C3: an episode with `allTime = 5` and all three
horizon counts zero also yields the all-zero retention triple, so the
"if and only if" direction of the claim fails. -/
theorem c3_retention_iff_counterexample :
    calculateRetention ⟨[], [], 0, 0, 0, 0, 0, 0, 0, 5⟩ = ⟨0, 0, 0⟩ ∧
    (⟨[], [], 0, 0, 0, 0, 0, 0, 0, 5⟩ : Episode).allTime ≠ 0 := by
  constructor
  · norm_num [calculateRetention]
  · decide

/-- Claim C3 as amended: `calculateRetention` returns the all-zero triple when
`allTime = 0`, and otherwise each field equals `100 * dayN / allTime`
(unclamped); the zero triple therefore also arises whenever the three horizon
counts are all zero, so it is not equivalent to `allTime = 0`. -/
theorem c3_retention_formula (e : Episode) :
    (e.allTime = 0 → calculateRetention e = ⟨0, 0, 0⟩) ∧
    (e.allTime ≠ 0 →
      calculateRetention e =
        ⟨100 * (e.day1 : ℚ) / (e.allTime : ℚ),
         100 * (e.day7 : ℚ) / (e.allTime : ℚ),
         100 * (e.day30 : ℚ) / (e.allTime : ℚ)⟩) := by
  constructor
  · intro h
    simp [calculateRetention, h]
  · intro h
    simp only [calculateRetention, if_neg h, RetentionResult.mk.injEq]
    refine ⟨by ring, by ring, by ring⟩

/-- Witness for the amended claim C3 at two concrete episodes. -/
theorem c3_retention_formula_witness :
    calculateRetention ⟨[], [], 0, 0, 0, 0, 0, 0, 0, 0⟩ = ⟨0, 0, 0⟩ ∧
    calculateRetention ⟨[], [], 0, 2, 0, 0, 3, 0, 0, 4⟩ =
      ⟨100 * ((2 : Int) : ℚ) / ((4 : Int) : ℚ),
       100 * ((0 : Int) : ℚ) / ((4 : Int) : ℚ),
       100 * ((3 : Int) : ℚ) / ((4 : Int) : ℚ)⟩ :=
  ⟨(c3_retention_formula _).1 rfl, (c3_retention_formula _).2 (by decide)⟩

/-! ## Claim C4 -/

/-- Claim C4: `getEpisodePerformance` computes `ratio = allTime / avgAllTime`
and classifies with boundaries closed on the lower end: `ratio ≥ 1.5` is
excellent, `1.1 ≤ ratio < 1.5` is good, `0.9 ≤ ratio < 1.1` is average, and
`ratio < 0.9` is below-average. -/
theorem c4_performance_tiers (e : Episode) (avg : ℚ) (h : avg ≠ 0) :
    ((1.5 : ℚ) ≤ (e.allTime : ℚ) / avg →
      getEpisodePerformance e avg = .excellent) ∧
    ((1.1 : ℚ) ≤ (e.allTime : ℚ) / avg ∧ (e.allTime : ℚ) / avg < (1.5 : ℚ) →
      getEpisodePerformance e avg = .good) ∧
    ((0.9 : ℚ) ≤ (e.allTime : ℚ) / avg ∧ (e.allTime : ℚ) / avg < (1.1 : ℚ) →
      getEpisodePerformance e avg = .average) ∧
    ((e.allTime : ℚ) / avg < (0.9 : ℚ) →
      getEpisodePerformance e avg = .belowAverage) := by
  have hd : jsDiv (e.allTime : ℚ) avg = .fin ((e.allTime : ℚ) / avg) := by
    simp [jsDiv, h]
  unfold getEpisodePerformance
  rw [hd]
  simp only [jsGe, decide_eq_true_eq]
  refine ⟨fun h1 => ?_, fun h1 => ?_, fun h1 => ?_, fun h1 => ?_⟩
  · rw [if_pos h1]
  · obtain ⟨ha, hb⟩ := h1
    rw [if_neg (by linarith), if_pos ha]
  · obtain ⟨ha, hb⟩ := h1
    rw [if_neg (by linarith), if_neg (by linarith), if_pos ha]
  · rw [if_neg (by linarith), if_neg (by linarith), if_neg (by linarith)]

/-- Witness for claim C4 at the three closed boundaries and one point below. -/
theorem c4_performance_tiers_witness :
    getEpisodePerformance ⟨[], [], 0, 0, 0, 0, 0, 0, 0, 3⟩ 2 = .excellent ∧
    getEpisodePerformance ⟨[], [], 0, 0, 0, 0, 0, 0, 0, 11⟩ 10 = .good ∧
    getEpisodePerformance ⟨[], [], 0, 0, 0, 0, 0, 0, 0, 9⟩ 10 = .average ∧
    getEpisodePerformance ⟨[], [], 0, 0, 0, 0, 0, 0, 0, 1⟩ 10 = .belowAverage :=
  ⟨(c4_performance_tiers _ 2 (by norm_num)).1 (by norm_num),
   (c4_performance_tiers _ 10 (by norm_num)).2.1 (by norm_num),
   (c4_performance_tiers _ 10 (by norm_num)).2.2.1 (by norm_num),
   (c4_performance_tiers _ 10 (by norm_num)).2.2.2 (by norm_num)⟩

/-! ## Claim C10 -/

/-- Claim C10: with `avgAllTime = 0` the classifier still returns normally:
a positive `allTime` gives ratio `+Infinity` and hence `excellent`, while
`allTime = 0` gives ratio `NaN`, every `>=` comparison is false, and the
result is `below-average`. -/
theorem c10_zero_average_total (e : Episode) :
    (0 < e.allTime → getEpisodePerformance e 0 = .excellent) ∧
    (e.allTime = 0 → getEpisodePerformance e 0 = .belowAverage) := by
  constructor
  · intro h
    have hd : jsDiv (e.allTime : ℚ) 0 = .posInf := by
      have h1 : (0 : ℚ) < (e.allTime : ℚ) := by exact_mod_cast h
      simp [jsDiv, h1, ne_of_gt h1]
    simp [getEpisodePerformance, hd, jsGe]
  · intro h
    have hd : jsDiv (e.allTime : ℚ) 0 = .nan := by
      simp [jsDiv, h]
    simp [getEpisodePerformance, hd, jsGe]

/-- Witness for claim C10 at `allTime = 7` and `allTime = 0`. -/
theorem c10_zero_average_total_witness :
    getEpisodePerformance ⟨[], [], 0, 0, 0, 0, 0, 0, 0, 7⟩ 0 = .excellent ∧
    getEpisodePerformance ⟨[], [], 0, 0, 0, 0, 0, 0, 0, 0⟩ 0 = .belowAverage :=
  ⟨(c10_zero_average_total _).1 (by decide), (c10_zero_average_total _).2 rfl⟩

/-! ## Claim C5 -/

/-- `splitLines` always produces at least one piece, exactly like the host
`split('\n')`. -/
theorem splitLines_ne_nil (s : Str) : splitLines s ≠ [] := by
  induction s with
  | nil => simp [splitLines]
  | cons c r ih =>
    rw [splitLines]
    split
    · simp
    · split
      · simp
      · simp

/-- Members of `insertDesc e l` are `e` or members of `l`. -/
theorem mem_insertDesc (a e : Episode) (l : List Episode) :
    a ∈ insertDesc e l → a = e ∨ a ∈ l := by
  induction l with
  | nil => simp [insertDesc]
  | cons x xs ih =>
    rw [insertDesc]
    split
    · intro hm
      simpa using hm
    · intro hm
      rcases List.mem_cons.mp hm with h1 | h1
      · exact Or.inr (by simp [h1])
      · rcases ih h1 with h2 | h2
        · exact Or.inl h2
        · exact Or.inr (by simp [h2])

/-- Insertion preserves the descending-by-`published` pairwise invariant. -/
theorem pairwise_insertDesc (e : Episode) (l : List Episode)
    (h : l.Pairwise (fun a b => b.published ≤ a.published)) :
    (insertDesc e l).Pairwise (fun a b => b.published ≤ a.published) := by
  induction l with
  | nil => simp [insertDesc]
  | cons x xs ih =>
    rw [insertDesc]
    rw [List.pairwise_cons] at h
    split
    · rename_i hle
      refine List.pairwise_cons.mpr ⟨?_, List.pairwise_cons.mpr h⟩
      intro b hb
      rcases List.mem_cons.mp hb with h1 | h1
      · subst h1; exact hle
      · exact le_trans (h.1 b h1) hle
    · rename_i hgt
      refine List.pairwise_cons.mpr ⟨?_, ih h.2⟩
      intro b hb
      rcases mem_insertDesc b e xs hb with h1 | h1
      · subst h1; exact le_of_not_le hgt
      · exact h.1 b h1

/-- Inserting preserves, for each date, the filtered subsequence: the new
episode lands in front of the entries sharing its date and behind no entry
of a different date that it should precede. -/
theorem filter_insertDesc (t : Int) (e : Episode) (l : List Episode) :
    (insertDesc e l).filter (fun a => decide (a.published = t)) =
      (e :: l).filter (fun a => decide (a.published = t)) := by
  induction l with
  | nil => rfl
  | cons x xs ih =>
    rw [insertDesc]
    split
    · rfl
    · rename_i hgt
      have hlt : e.published < x.published := lt_of_not_le hgt
      by_cases hx : x.published = t
      · have he : ¬ e.published = t := by omega
        simp only [List.filter_cons, ih]
        simp [he, hx]
      · by_cases he : e.published = t
        · simp only [List.filter_cons, ih]
          simp [he, hx]
        · simp only [List.filter_cons, ih]
          simp [he, hx]

/-- The stable sort is pairwise descending by `published`. -/
theorem pairwise_sortByPublishedDesc (l : List Episode) :
    (sortByPublishedDesc l).Pairwise (fun a b => b.published ≤ a.published) := by
  induction l with
  | nil => simp [sortByPublishedDesc]
  | cons x xs ih => exact pairwise_insertDesc x _ ih

/-- The stable sort preserves, for each date, the original relative order of
the episodes carrying that date. -/
theorem filter_sortByPublishedDesc (t : Int) (l : List Episode) :
    (sortByPublishedDesc l).filter (fun a => decide (a.published = t)) =
      l.filter (fun a => decide (a.published = t)) := by
  induction l with
  | nil => rfl
  | cons x xs ih =>
    rw [sortByPublishedDesc, filter_insertDesc, List.filter_cons,
      List.filter_cons, ih]

/-- Claim C5: for every input string the episode list of
`parseEpisodesFromCsv` is sorted descending by published date, and the sort
is stable — for each date, the episodes carrying it appear in the same order
as in the row-order list built by the row loop. -/
theorem c5_sorted_descending_stable (csv : Str) :
    (parseEpisodesFromCsv csv).episodes.Pairwise
      (fun a b => b.published ≤ a.published) ∧
    ∀ t : Int,
      (parseEpisodesFromCsv csv).episodes.filter (fun a => decide (a.published = t)) =
        (buildEpisodes (splitLines (jsTrim csv)).tail).filter
          (fun a => decide (a.published = t)) := by
  have hne : (splitLines (jsTrim csv)).length ≠ 0 :=
    fun h => splitLines_ne_nil _ (List.length_eq_zero.mp h)
  unfold parseEpisodesFromCsv
  rw [if_neg hne]
  exact ⟨pairwise_sortByPublishedDesc _, fun t => filter_sortByPublishedDesc t _⟩

/-! ## Claim C8 -/

/-- Counterexample to claim C8: parsing the empty payload does not surface a
distinguishable failure — it returns an ordinary result with zero episodes,
zero skipped rows, and only the header-format warning (even the dedicated
`CSV file is empty` warning is not produced). -/
theorem c8_empty_payload_counterexample :
    parseEpisodesFromCsv [] = ⟨[], 0, [headerMismatchWarning]⟩ := by
  decide

/-- The aggregate skip warning never equals the empty-file warning (they
start with different characters). -/
theorem skipWarning_ne_emptyCsvWarning (k : Nat) :
    skipWarning k ≠ emptyCsvWarning := by
  intro h
  have h2 : ('S' : Char) = 'C' := congrArg (fun l : Str => l.headD ' ') h
  exact absurd h2 (by decide)

/-- Claim C8 as amended: an empty input payload is not surfaced as a
distinguishable failure. `parseEpisodesFromCsv` returns a normal result whose
only signal is the header-format warning, and no input ever produces the
`CSV file is empty` warning, because splitting always yields at least one
line. -/
theorem c8_empty_payload_not_fatal :
    parseEpisodesFromCsv [] = ⟨[], 0, [headerMismatchWarning]⟩ ∧
    ∀ csv : Str, emptyCsvWarning ∉ (parseEpisodesFromCsv csv).warnings := by
  refine ⟨by decide, fun csv => ?_⟩
  have hne : (splitLines (jsTrim csv)).length ≠ 0 :=
    fun h => splitLines_ne_nil _ (List.length_eq_zero.mp h)
  unfold parseEpisodesFromCsv
  rw [if_neg hne]
  intro hmem
  rcases List.mem_append.mp hmem with h1 | h1
  · split at h1
    · simp at h1
    · rcases List.mem_singleton.mp h1 with h2
      exact absurd h2 (by decide)
  · split at h1
    · rcases List.mem_singleton.mp h1 with h2
      exact skipWarning_ne_emptyCsvWarning _ h2.symm
    · simp at h1

/-! ## Serialization round-trip lemmas -/

/-- Unfolding step of `parseJsonStr` on an escape sequence. -/
theorem parseJsonStr_esc_step (c : Char) (l : Str) :
    parseJsonStr ('\\' :: c :: l) =
      if c = '"' ∨ c = '\\' then (parseJsonStr l).map (fun p => (c :: p.1, p.2))
      else none := by
  rw [parseJsonStr.eq_def]
  rfl

/-- Unfolding step of `parseJsonStr` on the closing quote. -/
theorem parseJsonStr_quote (l : Str) : parseJsonStr ('"' :: l) = some ([], l) := by
  rw [parseJsonStr.eq_def]
  rfl

/-- Unfolding step of `parseJsonStr` on an ordinary character. -/
theorem parseJsonStr_plain_step (c : Char) (l : Str) (h1 : ¬ c = '"')
    (h2 : ¬ c = '\\') :
    parseJsonStr (c :: l) = (parseJsonStr l).map (fun p => (c :: p.1, p.2)) := by
  rw [parseJsonStr.eq_def]
  simp [h1, h2]

/-- `parseJsonStr` undoes `escapeStr` up to the closing quote. -/
theorem parseJsonStr_escape (s rest : Str) :
    parseJsonStr (escapeStr s ++ '"' :: rest) = some (s, rest) := by
  induction s with
  | nil => exact parseJsonStr_quote rest
  | cons c r ih =>
    by_cases hc : c = '"' ∨ c = '\\'
    · have h1 : escapeStr (c :: r) ++ '"' :: rest =
          '\\' :: c :: (escapeStr r ++ '"' :: rest) := by
        rw [escapeStr, if_pos hc]
        simp
      rw [h1, parseJsonStr_esc_step, if_pos hc, ih]
      rfl
    · push_neg at hc
      have h1 : escapeStr (c :: r) ++ '"' :: rest =
          c :: (escapeStr r ++ '"' :: rest) := by
        rw [escapeStr, if_neg]
        · simp
        · simp [hc.1, hc.2]
      rw [h1, parseJsonStr_plain_step c _ hc.1 hc.2, ih]
      rfl

/-- The value of a decimal digit character built from `d < 10`. -/
theorem digitCharVal (d : Nat) (h : d < 10) : (Char.ofNat (48 + d)).toNat - 48 = d := by
  interval_cases d <;> decide

/-- Digit characters satisfy `Char.isDigit`. -/
theorem digitChar_isDigit (d : Nat) (h : d < 10) :
    (Char.ofNat (48 + d)).isDigit = true := by
  interval_cases d <;> decide

/-- A digit character is not the minus sign. -/
theorem isDigit_ne_dash (c : Char) (h : c.isDigit = true) : ¬ c = '-' := by
  intro h2
  subst h2
  exact absurd h (by decide)

/-- `digitsToNat` of a reversed list is `valRev`. -/
theorem digitsToNat_reverse (l : Str) : digitsToNat l.reverse = valRev l := by
  induction l with
  | nil => rfl
  | cons c r ih =>
    rw [List.reverse_cons]
    have h1 : digitsToNat (r.reverse ++ [c]) =
        10 * digitsToNat r.reverse + (c.toNat - 48) := by
      unfold digitsToNat
      rw [List.foldl_append]
      rfl
    rw [h1, ih, valRev]
    omega

/-- `natDigitsRev` is a correct digit expansion. -/
theorem valRev_natDigitsRev (n : Nat) : valRev (natDigitsRev n) = n := by
  induction n using Nat.strong_induction_on with
  | _ n ih =>
    rw [natDigitsRev]
    split
    · rename_i h
      simp [valRev, digitCharVal n h]
    · rename_i h
      rw [valRev, digitCharVal (n % 10) (Nat.mod_lt _ (by omega)),
        ih (n / 10) (Nat.div_lt_self (by omega) (by omega))]
      omega

/-- All characters of `natDigitsRev` are digits. -/
theorem natDigitsRev_digits (n : Nat) : ∀ c ∈ natDigitsRev n, c.isDigit = true := by
  induction n using Nat.strong_induction_on with
  | _ n ih =>
    rw [natDigitsRev]
    split
    · rename_i h
      intro c hc
      rw [List.mem_singleton] at hc
      subst hc
      exact digitChar_isDigit n h
    · rename_i h
      intro c hc
      rcases List.mem_cons.mp hc with h1 | h1
      · subst h1
        exact digitChar_isDigit _ (Nat.mod_lt _ (by omega))
      · exact ih (n / 10) (Nat.div_lt_self (by omega) (by omega)) c h1

/-- `natDigitsRev` is never empty. -/
theorem natDigitsRev_ne_nil (n : Nat) : natDigitsRev n ≠ [] := by
  rw [natDigitsRev]
  split <;> simp

/-- All characters of `natToStr` are digits. -/
theorem natToStr_digits (n : Nat) : ∀ c ∈ natToStr n, c.isDigit = true :=
  fun c hc => natDigitsRev_digits n c (List.mem_reverse.mp hc)

/-- `natToStr` is never empty. -/
theorem natToStr_ne_nil (n : Nat) : natToStr n ≠ [] := by
  unfold natToStr
  simp [natDigitsRev_ne_nil n]

/-- Reading back the decimal rendering of a natural number. -/
theorem digitsToNat_natToStr (n : Nat) : digitsToNat (natToStr n) = n := by
  unfold natToStr
  rw [digitsToNat_reverse, valRev_natDigitsRev]

/-- `takeWhile` passes over a block that wholly satisfies the predicate. -/
theorem takeWhile_append_all (p : Char → Bool) (l m : Str)
    (h : ∀ c ∈ l, p c = true) :
    (l ++ m).takeWhile p = l ++ m.takeWhile p := by
  induction l with
  | nil => simp
  | cons c r ih =>
    have hc : p c = true := h c (by simp)
    simp only [List.cons_append, List.takeWhile_cons, hc, if_true]
    rw [ih (fun x hx => h x (by simp [hx]))]

/-- `dropWhile` drops a block that wholly satisfies the predicate. -/
theorem dropWhile_append_all (p : Char → Bool) (l m : Str)
    (h : ∀ c ∈ l, p c = true) :
    (l ++ m).dropWhile p = m.dropWhile p := by
  induction l with
  | nil => simp
  | cons c r ih =>
    have hc : p c = true := h c (by simp)
    simp only [List.cons_append, List.dropWhile_cons, hc, if_true]
    exact ih (fun x hx => h x (by simp [hx]))

/-- When `takeWhile` takes nothing, `dropWhile` drops nothing. -/
theorem dropWhile_of_takeWhile_nil (p : Char → Bool) (m : Str)
    (h : m.takeWhile p = []) : m.dropWhile p = m := by
  cases m with
  | nil => rfl
  | cons c r =>
    by_cases hpc : p c = true
    · rw [List.takeWhile_cons, if_pos hpc] at h
      exact absurd h (by simp)
    · rw [List.dropWhile_cons, if_neg hpc]

/-- `parseJsonNat` reads back `natToStr` when the rest starts with a
non-digit. -/
theorem parseJsonNat_honest (n : Nat) (m : Str)
    (hm : m.takeWhile Char.isDigit = []) :
    parseJsonNat (natToStr n ++ m) = some (n, m) := by
  unfold parseJsonNat
  rw [takeWhile_append_all _ _ _ (natToStr_digits n), hm, List.append_nil,
    dropWhile_append_all _ _ _ (natToStr_digits n),
    dropWhile_of_takeWhile_nil _ _ hm,
    if_neg (natToStr_ne_nil n), digitsToNat_natToStr]

/-- `parseJsonInt` reads back `intToStr` when the rest starts with a
non-digit. -/
theorem parseJsonInt_honest (n : Int) (m : Str)
    (hm : m.takeWhile Char.isDigit = []) :
    parseJsonInt (intToStr n ++ m) = some (n, m) := by
  unfold intToStr
  by_cases hn : n < 0
  · rw [if_pos hn, List.cons_append]
    have hstep : parseJsonInt ('-' :: (natToStr n.natAbs ++ m)) =
        (parseJsonNat (natToStr n.natAbs ++ m)).map
          (fun p => (-(p.1 : Int), p.2)) := rfl
    rw [hstep, parseJsonNat_honest _ _ hm]
    have hcast : -((n.natAbs : Nat) : Int) = n := by omega
    show some (-((n.natAbs : Nat) : Int), m) = some (n, m)
    rw [hcast]
  · rw [if_neg hn]
    obtain ⟨c, r, hcr⟩ : ∃ c r, natToStr n.toNat = c :: r := by
      cases hh : natToStr n.toNat with
      | nil => exact absurd hh (natToStr_ne_nil _)
      | cons c r => exact ⟨c, r, rfl⟩
    have hcd : c.isDigit = true := natToStr_digits _ c (by rw [hcr]; simp)
    rw [hcr, List.cons_append]
    have hstep : parseJsonInt (c :: (r ++ m)) =
        if c = '-' then
          (parseJsonNat (r ++ m)).map (fun p => (-(p.1 : Int), p.2))
        else (parseJsonNat (c :: (r ++ m))).map (fun p => ((p.1 : Int), p.2)) := rfl
    rw [hstep, if_neg (isDigit_ne_dash c hcd), ← List.cons_append, ← hcr,
      parseJsonNat_honest _ _ hm]
    have hcast : ((n.toNat : Nat) : Int) = n := by omega
    show some (((n.toNat : Nat) : Int), m) = some (n, m)
    rw [hcast]

/-- Stripping an expected literal piece from its own append. -/
theorem stripLead_append (pre r : Str) : stripLead pre (pre ++ r) = some r := by
  unfold stripLead
  rw [List.take_left, List.drop_left]
  simp

/-- `jsonParseMeta` is a left inverse of `jsonStringifyMeta`. -/
theorem jsonParseMeta_stringify (m : Metadata) :
    jsonParseMeta (jsonStringifyMeta m) = some m := by
  obtain ⟨label, ts⟩ := m
  unfold jsonStringifyMeta jsonParseMeta
  simp only [List.append_assoc, List.cons_append, stripLead_append,
    parseJsonStr_escape, parseJsonInt_honest ts ['\x7d'] (by decide)]
  simp

/-- The serialized metadata string is never empty. -/
theorem jsonStringifyMeta_ne_nil (m : Metadata) : jsonStringifyMeta m ≠ [] := by
  unfold jsonStringifyMeta
  intro h
  simp only [List.append_eq_nil] at h
  exact absurd h.1.1.1.1 (by decide)

/-! ## Claim C6 -/

/-- Counterexample to claim C6: starting from an empty store, when the first
underlying write succeeds and the second fails, the raw-CSV key has changed
even though the save signals the typed failure — a partial write is
observable. -/
theorem c6_partial_write_counterexample :
    (saveCsvToStorage false true "x".toList ⟨"f.csv".toList, 1⟩ ⟨none, none⟩).1 =
      some saveErrorMessage ∧
    (saveCsvToStorage false true "x".toList ⟨"f.csv".toList, 1⟩ ⟨none, none⟩).2.csvItem ≠
      (⟨none, none⟩ : LocalStorage).csvItem := by
  constructor
  · rfl
  · decide

/-- Claim C6 as amended: a failed write always signals the typed failure, and
a failure of the first (raw-CSV) write leaves both keys unchanged; but when
the first write succeeds and the second (metadata) write fails, the raw-CSV
key retains the newly written value while the metadata key is unchanged, so
a partial write can be observable. -/
theorem c6_save_failure_behaviour (f1 f2 : Bool) (csv : Str) (m : Metadata)
    (st : LocalStorage) :
    (f1 = true → saveCsvToStorage f1 f2 csv m st = (some saveErrorMessage, st)) ∧
    (f1 = false → f2 = true →
      saveCsvToStorage f1 f2 csv m st =
        (some saveErrorMessage, ⟨some csv, st.metadataItem⟩)) ∧
    (f1 = false → f2 = false →
      saveCsvToStorage f1 f2 csv m st =
        (none, ⟨some csv, some (jsonStringifyMeta m)⟩)) := by
  refine ⟨fun h1 => ?_, fun h1 h2 => ?_, fun h1 h2 => ?_⟩ <;> subst h1 <;>
    try subst h2
  · rfl
  · rfl
  · rfl

/-- Witness for the amended claim C6 in all three failure configurations. -/
theorem c6_save_failure_behaviour_witness :
    saveCsvToStorage true false "a".toList ⟨"l".toList, 0⟩ ⟨none, none⟩ =
      (some saveErrorMessage, ⟨none, none⟩) ∧
    saveCsvToStorage false true "a".toList ⟨"l".toList, 0⟩ ⟨none, none⟩ =
      (some saveErrorMessage, ⟨some "a".toList, none⟩) ∧
    saveCsvToStorage false false "a".toList ⟨"l".toList, 0⟩ ⟨none, none⟩ =
      (none, ⟨some "a".toList, some (jsonStringifyMeta ⟨"l".toList, 0⟩)⟩) :=
  ⟨(c6_save_failure_behaviour true false _ _ _).1 rfl,
   (c6_save_failure_behaviour false true _ _ _).2.1 rfl rfl,
   (c6_save_failure_behaviour false false _ _ _).2.2 rfl rfl⟩

/-! ## Claim C7 -/

/-- Claim C7: when both keys hold non-empty values but the stored metadata
fails to parse as JSON, the load deletes both keys and reports "no persisted
dataset", and the application initializer falls back to the bundled dataset
(re-parsing the raw text cannot fail, `parseEpisodesFromCsv` being total). -/
theorem c7_corrupt_metadata_clears (bundled csv metaStr : Str)
    (hcsv : csv ≠ []) (hmeta : metaStr ≠ [])
    (hparse : jsonParseMeta metaStr = none) :
    loadCsvFromStorage ⟨some csv, some metaStr⟩ = (none, ⟨none, none⟩) ∧
    appInitEpisodesState bundled ⟨some csv, some metaStr⟩ =
      (loadEpisodes bundled, ⟨none, none⟩) := by
  have hl : loadCsvFromStorage ⟨some csv, some metaStr⟩ = (none, ⟨none, none⟩) := by
    simp [loadCsvFromStorage, hcsv, hmeta, hparse, clearCsvFromStorage]
  refine ⟨hl, ?_⟩
  unfold appInitEpisodesState
  rw [hl]

/-- Witness for claim C7 with a concrete corrupt metadata string. -/
theorem c7_corrupt_metadata_clears_witness :
    loadCsvFromStorage ⟨some "x".toList, some "garbage".toList⟩ =
      (none, ⟨none, none⟩) ∧
    appInitEpisodesState [] ⟨some "x".toList, some "garbage".toList⟩ =
      (loadEpisodes [], ⟨none, none⟩) :=
  c7_corrupt_metadata_clears [] "x".toList "garbage".toList (by decide)
    (by decide) (by decide)

/-! ## Claim C9 -/

/-- Counterexample to claim C9: saving the empty raw text succeeds, but the
subsequent load reports "no persisted dataset" instead of returning the text
and metadata, because the load treats an empty stored string as absent. -/
theorem c9_roundtrip_counterexample :
    (loadCsvFromStorage
        (saveCsvToStorage false false [] ⟨"f.csv".toList, 1⟩ ⟨none, none⟩).2).1 =
      none := rfl

/-- Claim C9 as amended: for any non-empty raw text and any metadata, a
successful save followed by a load returns both unchanged; a clear followed
by a load reports "no persisted dataset"; and clear is idempotent. -/
theorem c9_roundtrip (csv : Str) (m : Metadata) (st : LocalStorage)
    (h : csv ≠ []) :
    (loadCsvFromStorage (saveCsvToStorage false false csv m st).2).1 =
      some (csv, m) ∧
    (loadCsvFromStorage (clearCsvFromStorage st)).1 = none ∧
    clearCsvFromStorage (clearCsvFromStorage st) = clearCsvFromStorage st := by
  refine ⟨?_, rfl, rfl⟩
  have hs : (saveCsvToStorage false false csv m st).2 =
      ⟨some csv, some (jsonStringifyMeta m)⟩ := rfl
  rw [hs]
  simp [loadCsvFromStorage, h, jsonStringifyMeta_ne_nil m, jsonParseMeta_stringify]

/-- Witness for the amended claim C9 at concrete text and metadata. -/
theorem c9_roundtrip_witness :
    (loadCsvFromStorage
        (saveCsvToStorage false false "a".toList ⟨"lbl".toList, 5⟩ ⟨none, none⟩).2).1 =
      some ("a".toList, ⟨"lbl".toList, 5⟩) ∧
    (loadCsvFromStorage (clearCsvFromStorage ⟨none, none⟩)).1 = none ∧
    clearCsvFromStorage (clearCsvFromStorage ⟨none, none⟩) =
      clearCsvFromStorage ⟨none, none⟩ :=
  c9_roundtrip "a".toList ⟨"lbl".toList, 5⟩ ⟨none, none⟩ (by decide)

end Podstats
